import Mathlib

/-!
# Rollkit `types/serialization.go`: domain model <-> protobuf wire records

A shallow embedding of the conversion layer of `types/serialization.go`.

* A Go slice is an `Option (List α)`: `none` is the nil slice, `some []` an
  empty non-nil slice.  Integers of the records are only ever copied, so they
  are `Nat` (unsigned) and `Int` (signed); a byte is a `Nat`.
* A Go pointer field of a wire record (`*pb.Version`, `*pb.Header`, ...) is an
  `Option`; reading a field through a nil pointer is the run-time fault
  `Outcome.nilDeref`.
* `FromProto` methods fill their receiver in place.  They are functions from
  the receiver before the call and the wire record to the receiver after the
  call and the `Outcome` of the call.
* The conversions of cometbft (`ValidatorSet.ToProto`,
  `ValidatorSetFromProto`, `BlockID.ToProto`, `BlockIDFromProto`) are not part
  of the file; every function that calls one takes it as an argument.
-/

namespace Rollkit

/-! ## Go values -/

/-- A Go slice: `none` is nil, `some l` a non-nil slice with elements `l`. -/
abbrev Slice (α : Type) := Option (List α)

/-- Go `len(s)`. -/
def Slice.len {α : Type} (s : Slice α) : Nat :=
  match s with
  | none => 0
  | some l => l.length

/-- The element of index `i`, when `i < len(s)`. -/
def Slice.at? {α : Type} (s : Slice α) (i : Nat) : Option α :=
  match s with
  | none => none
  | some l => l.get? i

/-- Go `s[:]`: a nil slice stays nil, a non-nil slice keeps its elements. -/
def Slice.full {α : Type} (s : Slice α) : Slice α :=
  match s with
  | none => none
  | some l => some l

/-- Go `[]byte`. -/
abbrev Bytes := Slice Nat

/-- Go `make([]T, n)`: `n` zero values. -/
def makeSlice {α : Type} (zero : α) (n : Nat) : List α :=
  List.replicate n zero

/-- Go `copy(dst, src)`: the first `min(len(dst), len(src))` elements of `dst`
are overwritten with those of `src`. -/
def goCopy {α : Type} (dst src : List α) : List α :=
  src.take dst.length ++ dst.drop src.length

/-- The loop `for i := range r { dst[i] = src[i] }` with `n = len(r)`; the
zero value stands for an element that `src` does not have (never read in the
callers, where `len(src) = n`). -/
def assignLoop {α : Type} (zero : α) (n : Nat) (src dst : List α) : List α :=
  (List.range n).foldl (fun acc i => acc.set i (src.getD i zero)) dst

/-- A Go `error` value. -/
abbrev Error := String

/-- How a call that fills its receiver ended. -/
inductive Outcome where
  | ok
  | err (e : Error)
  | nilDeref
  deriving DecidableEq, Repr

/-! ## Domain types -/

/-- `type Hash []byte` (the tests build one with `make(Hash, 32)`). -/
abbrev Hash := Bytes

/-- `type Signature []byte`. -/
abbrev Signature := Bytes

/-- `type Tx []byte`. -/
abbrev Tx := Bytes

/-- `type Txs []Tx`. -/
abbrev Txs := Slice Tx

structure Version where
  Block : Nat := 0
  App : Nat := 0
  deriving DecidableEq, Repr

structure BaseHeader where
  Height : Nat := 0
  Time : Nat := 0
  ChainID : String := ""
  deriving DecidableEq, Repr

structure Header where
  BaseHeader : BaseHeader := {}
  Version : Version := {}
  LastHeaderHash : Hash := none
  LastCommitHash : Hash := none
  DataHash : Hash := none
  ConsensusHash : Hash := none
  AppHash : Hash := none
  LastResultsHash : Hash := none
  ProposerAddress : Bytes := none
  deriving DecidableEq, Repr

structure Commit where
  Signatures : Slice Signature := none
  deriving DecidableEq, Repr

structure IntermediateStateRoots where
  RawRootsList : Slice Bytes := none
  deriving DecidableEq, Repr

structure Data where
  Txs : Txs := none
  IntermediateStateRoots : IntermediateStateRoots := {}
  deriving DecidableEq, Repr

/-! ## Wire records of `types/pb/rollkit` -/

structure pb.Version where
  Block : Nat := 0
  App : Nat := 0
  deriving DecidableEq, Repr

structure pb.Header where
  Version : Option pb.Version := none
  Height : Nat := 0
  Time : Nat := 0
  LastHeaderHash : Bytes := none
  LastCommitHash : Bytes := none
  DataHash : Bytes := none
  ConsensusHash : Bytes := none
  AppHash : Bytes := none
  LastResultsHash : Bytes := none
  ProposerAddress : Bytes := none
  ChainId : String := ""
  deriving DecidableEq, Repr

structure pb.Commit where
  Signatures : Slice Bytes := none
  deriving DecidableEq, Repr

/-- The wire record of `Data`; its evidence field is read and written by no
function of the file and is left out. -/
structure pb.Data where
  Txs : Slice Bytes := none
  IntermediateStateRoots : Slice Bytes := none
  deriving DecidableEq, Repr

/-! ## Byte-collection adapters -/

def txsToByteSlices (txs : Txs) : Slice Bytes :=
  match txs with
  | none => none
  | some l => some (assignLoop none l.length l (makeSlice none l.length))

def byteSlicesToTxs (bytes : Slice Bytes) : Txs :=
  if bytes.len = 0 then none
  else
    match bytes with
    | none => none
    | some l => some (assignLoop none l.length l (makeSlice none l.length))

def signaturesToByteSlices (sigs : Slice Signature) : Slice Bytes :=
  match sigs with
  | none => none
  | some l => some (assignLoop none l.length l (makeSlice none l.length))

def byteSlicesToSignatures (bytes : Slice Bytes) : Slice Signature :=
  match bytes with
  | none => none
  | some l => some (assignLoop none l.length l (makeSlice none l.length))

/-! ## Header, Commit, Data -/

def Header.ToProto (h : Header) : pb.Header :=
  { Version := some { Block := h.Version.Block, App := h.Version.App }
    Height := h.BaseHeader.Height
    Time := h.BaseHeader.Time
    LastHeaderHash := h.LastHeaderHash.full
    LastCommitHash := h.LastCommitHash.full
    DataHash := h.DataHash.full
    ConsensusHash := h.ConsensusHash.full
    AppHash := h.AppHash.full
    LastResultsHash := h.LastResultsHash.full
    ProposerAddress := h.ProposerAddress.full
    ChainId := h.BaseHeader.ChainID }

/-- The receiver after `h.FromProto(other)` and the outcome.  The first
statement reads `other.Version.Block`: with `other` nil or `other.Version`
nil it faults before anything is assigned. -/
def Header.FromProto (h : Header) (other : Option pb.Header) : Header × Outcome :=
  match other with
  | none => (h, Outcome.nilDeref)
  | some o =>
    match o.Version with
    | none => (h, Outcome.nilDeref)
    | some v =>
      let h1 : Header :=
        { h with
          Version := { h.Version with Block := v.Block, App := v.App }
          BaseHeader :=
            { h.BaseHeader with ChainID := o.ChainId, Height := o.Height, Time := o.Time }
          LastHeaderHash := o.LastHeaderHash
          LastCommitHash := o.LastCommitHash
          DataHash := o.DataHash
          ConsensusHash := o.ConsensusHash
          AppHash := o.AppHash
          LastResultsHash := o.LastResultsHash }
      if 0 < o.ProposerAddress.len then
        match o.ProposerAddress with
        | none => (h1, Outcome.ok)
        | some src =>
          ({ h1 with ProposerAddress := some (goCopy (makeSlice 0 src.length) src) },
            Outcome.ok)
      else (h1, Outcome.ok)

def Data.ToProto (d : Data) : pb.Data :=
  { Txs := txsToByteSlices d.Txs
    IntermediateStateRoots := d.IntermediateStateRoots.RawRootsList }

def Data.FromProto (d : Data) (other : Option pb.Data) : Data × Outcome :=
  match other with
  | none => (d, Outcome.nilDeref)
  | some o =>
    ({ d with
       Txs := byteSlicesToTxs o.Txs
       IntermediateStateRoots :=
         { d.IntermediateStateRoots with RawRootsList := o.IntermediateStateRoots } },
      Outcome.ok)

def Commit.ToProto (c : Commit) : pb.Commit :=
  { Signatures := signaturesToByteSlices c.Signatures }

def Commit.FromProto (c : Commit) (other : Option pb.Commit) : Commit × Outcome :=
  match other with
  | none => (c, Outcome.nilDeref)
  | some o => ({ c with Signatures := byteSlicesToSignatures o.Signatures }, Outcome.ok)

/-! ## Records of cometbft

The declarations of the consensus library, as far as the file and its tests
use them.  The conversions between them belong to that library. -/

structure cmtypes.Validator where
  Address : Bytes := none
  PubKey : Bytes := none
  VotingPower : Int := 0
  ProposerPriority : Int := 0
  deriving DecidableEq, Repr

/-- `cmtypes.ValidatorSet`: validators and the designated proposer. -/
structure cmtypes.ValidatorSet where
  Validators : Slice cmtypes.Validator := none
  Proposer : Option cmtypes.Validator := none
  deriving DecidableEq, Repr

structure cmproto.Validator where
  Address : Bytes := none
  PubKey : Bytes := none
  VotingPower : Int := 0
  ProposerPriority : Int := 0
  deriving DecidableEq, Repr

/-- The wire validator set; `GetProposer()` of a non-nil one is its `Proposer`
field. -/
structure cmproto.ValidatorSet where
  Validators : Slice cmproto.Validator := none
  Proposer : Option cmproto.Validator := none
  TotalVotingPower : Int := 0
  deriving DecidableEq, Repr

structure cmtypes.PartSetHeader where
  Total : Nat := 0
  Hash : Bytes := none
  deriving DecidableEq, Repr

structure cmtypes.BlockID where
  Hash : Bytes := none
  PartSetHeader : cmtypes.PartSetHeader := {}
  deriving DecidableEq, Repr

structure cmproto.PartSetHeader where
  Total : Nat := 0
  Hash : Bytes := none
  deriving DecidableEq, Repr

structure cmproto.BlockID where
  Hash : Bytes := none
  PartSetHeader : cmproto.PartSetHeader := {}
  deriving DecidableEq, Repr

structure cmversion.Consensus where
  Block : Nat := 0
  App : Nat := 0
  deriving DecidableEq, Repr

structure cmstate.Version where
  Consensus : cmversion.Consensus := {}
  Software : String := ""
  deriving DecidableEq, Repr

structure cmproto.BlockParams where
  MaxBytes : Int := 0
  MaxGas : Int := 0
  deriving DecidableEq, Repr

structure cmproto.EvidenceParams where
  MaxAgeNumBlocks : Int := 0
  MaxAgeDuration : Int := 0
  MaxBytes : Int := 0
  deriving DecidableEq, Repr

structure cmproto.ValidatorParams where
  PubKeyTypes : Slice String := none
  deriving DecidableEq, Repr

structure cmproto.VersionParams where
  App : Nat := 0
  deriving DecidableEq, Repr

structure cmproto.ABCIParams where
  VoteExtensionsEnableHeight : Int := 0
  deriving DecidableEq, Repr

structure cmproto.ConsensusParams where
  Block : Option cmproto.BlockParams := none
  Evidence : Option cmproto.EvidenceParams := none
  Validator : Option cmproto.ValidatorParams := none
  Version : Option cmproto.VersionParams := none
  Abci : Option cmproto.ABCIParams := none
  deriving DecidableEq, Repr

/-- Go `time.Time`, a value that the file only copies. -/
structure Time where
  sec : Int := 0
  nsec : Nat := 0
  deriving DecidableEq, Repr

/-- `(*cmtypes.ValidatorSet).ToProto`, callable on a nil receiver: the wire
validator set (a pointer) or an error. -/
abbrev ValidatorSetEncoder :=
  Option cmtypes.ValidatorSet → Except Error (Option cmproto.ValidatorSet)

/-- `cmtypes.ValidatorSetFromProto` on a non-nil wire validator set: the
validator set or an error. -/
abbrev ValidatorSetDecoder := cmproto.ValidatorSet → Except Error cmtypes.ValidatorSet

/-- `cmtypes.BlockID.ToProto`. -/
abbrev BlockIDEncoder := cmtypes.BlockID → cmproto.BlockID

/-- `cmtypes.BlockIDFromProto` on the address of a wire block id: the block id
or an error. -/
abbrev BlockIDDecoder := cmproto.BlockID → Except Error cmtypes.BlockID

/-! ## SignedHeader, Block -/

structure SignedHeader where
  Header : Header := {}
  Commit : Commit := {}
  Validators : Option cmtypes.ValidatorSet := none
  deriving DecidableEq, Repr

structure Block where
  SignedHeader : SignedHeader := {}
  Data : Data := {}
  deriving DecidableEq, Repr

structure pb.SignedHeader where
  Header : Option pb.Header := none
  Commit : Option pb.Commit := none
  Validators : Option cmproto.ValidatorSet := none
  deriving DecidableEq, Repr

structure pb.Block where
  SignedHeader : Option pb.SignedHeader := none
  Data : Option pb.Data := none
  deriving DecidableEq, Repr

def SignedHeader.ToProto (enc : ValidatorSetEncoder) (sh : SignedHeader) :
    Except Error pb.SignedHeader :=
  match enc sh.Validators with
  | .error e => .error e
  | .ok vSet =>
    .ok { Header := some sh.Header.ToProto
          Commit := some sh.Commit.ToProto
          Validators := vSet }

/-- The guard `other.Validators != nil && other.Validators.GetProposer() != nil`:
the wire validator set that is handed to the decoder, if any. -/
def validatorsToDecode (v : Option cmproto.ValidatorSet) : Option cmproto.ValidatorSet :=
  match v with
  | none => none
  | some w => if w.Proposer.isSome then some w else none

/-- The receiver after `sh.FromProto(other)` and the outcome.  An error or a
fault ends the call where it happens; what was assigned before stays. -/
def SignedHeader.FromProto (dec : ValidatorSetDecoder) (sh : SignedHeader)
    (other : Option pb.SignedHeader) : SignedHeader × Outcome :=
  match other with
  | none => (sh, Outcome.nilDeref)
  | some o =>
    match sh.Header.FromProto o.Header with
    | (h1, Outcome.ok) =>
      let sh1 : SignedHeader := { sh with Header := h1 }
      match sh1.Commit.FromProto o.Commit with
      | (c1, Outcome.ok) =>
        let sh2 : SignedHeader := { sh1 with Commit := c1 }
        match validatorsToDecode o.Validators with
        | some w =>
          match dec w with
          | .error e => (sh2, Outcome.err e)
          | .ok validators => ({ sh2 with Validators := some validators }, Outcome.ok)
        | none => (sh2, Outcome.ok)
      | (c1, out) => ({ sh1 with Commit := c1 }, out)
    | (h1, out) => ({ sh with Header := h1 }, out)

def Block.ToProto (enc : ValidatorSetEncoder) (b : Block) : Except Error pb.Block :=
  match b.SignedHeader.ToProto enc with
  | .error e => .error e
  | .ok sp => .ok { SignedHeader := some sp, Data := some b.Data.ToProto }

def Block.FromProto (dec : ValidatorSetDecoder) (b : Block) (other : Option pb.Block) :
    Block × Outcome :=
  match other with
  | none => (b, Outcome.nilDeref)
  | some o =>
    match b.SignedHeader.FromProto dec o.SignedHeader with
    | (s1, Outcome.ok) =>
      let b1 : Block := { b with SignedHeader := s1 }
      match b1.Data.FromProto o.Data with
      | (d1, out) => ({ b1 with Data := d1 }, out)
    | (s1, out) => ({ b with SignedHeader := s1 }, out)

/-! ## State -/

structure State where
  Version : cmstate.Version := {}
  ChainID : String := ""
  InitialHeight : Nat := 0
  LastBlockHeight : Nat := 0
  LastBlockID : cmtypes.BlockID := {}
  LastBlockTime : Time := {}
  DAHeight : Nat := 0
  ConsensusParams : cmproto.ConsensusParams := {}
  LastHeightConsensusParamsChanged : Nat := 0
  LastResultsHash : Hash := none
  AppHash : Hash := none
  deriving DecidableEq, Repr

structure pb.State where
  Version : Option cmstate.Version := none
  ChainId : String := ""
  InitialHeight : Nat := 0
  LastBlockHeight : Nat := 0
  LastBlockID : cmproto.BlockID := {}
  LastBlockTime : Time := {}
  DAHeight : Nat := 0
  ConsensusParams : cmproto.ConsensusParams := {}
  LastHeightConsensusParamsChanged : Nat := 0
  LastResultsHash : Bytes := none
  AppHash : Bytes := none
  deriving DecidableEq, Repr

def State.ToProto (enc : BlockIDEncoder) (s : State) : Except Error pb.State :=
  .ok { Version := some s.Version
        ChainId := s.ChainID
        InitialHeight := s.InitialHeight
        LastBlockHeight := s.LastBlockHeight
        LastBlockID := enc s.LastBlockID
        LastBlockTime := s.LastBlockTime
        DAHeight := s.DAHeight
        ConsensusParams := s.ConsensusParams
        LastHeightConsensusParamsChanged := s.LastHeightConsensusParamsChanged
        LastResultsHash := s.LastResultsHash.full
        AppHash := s.AppHash.full }

/-- The receiver after `s.FromProto(other)` and the outcome.  `*other.Version`
is read first; the four fields before the block id are assigned before the
decoder can fail. -/
def State.FromProto (dec : BlockIDDecoder) (s : State) (other : Option pb.State) :
    State × Outcome :=
  match other with
  | none => (s, Outcome.nilDeref)
  | some o =>
    match o.Version with
    | none => (s, Outcome.nilDeref)
    | some v =>
      let s1 : State :=
        { s with
          Version := v
          ChainID := o.ChainId
          InitialHeight := o.InitialHeight
          LastBlockHeight := o.LastBlockHeight }
      match dec o.LastBlockID with
      | .error e => (s1, Outcome.err e)
      | .ok lastBlockID =>
        ({ s1 with
           LastBlockID := lastBlockID
           LastBlockTime := o.LastBlockTime
           DAHeight := o.DAHeight
           ConsensusParams := o.ConsensusParams
           LastHeightConsensusParamsChanged := o.LastHeightConsensusParamsChanged
           LastResultsHash := o.LastResultsHash
           AppHash := o.AppHash },
          Outcome.ok)

/-! ## Consensus parameters -/

structure cmtypes.BlockParams where
  MaxBytes : Int := 0
  MaxGas : Int := 0
  deriving DecidableEq, Repr

structure cmtypes.EvidenceParams where
  MaxAgeNumBlocks : Int := 0
  MaxAgeDuration : Int := 0
  MaxBytes : Int := 0
  deriving DecidableEq, Repr

structure cmtypes.ValidatorParams where
  PubKeyTypes : Slice String := none
  deriving DecidableEq, Repr

structure cmtypes.VersionParams where
  App : Nat := 0
  deriving DecidableEq, Repr

structure cmtypes.ABCIParams where
  VoteExtensionsEnableHeight : Int := 0
  deriving DecidableEq, Repr

/-- `cmtypes.ConsensusParams`, the consensus parameters of the consensus
library, all sub-records held by value. -/
structure cmtypes.ConsensusParams where
  Block : cmtypes.BlockParams := {}
  Evidence : cmtypes.EvidenceParams := {}
  Validator : cmtypes.ValidatorParams := {}
  Version : cmtypes.VersionParams := {}
  ABCI : cmtypes.ABCIParams := {}
  deriving DecidableEq, Repr

/-- The value that `ConsensusParamsFromProto(pbParams)` returns; `none` is the
fault of reading `pbParams.Block`, `pbParams.Validator` or `pbParams.Version`
through a nil pointer while the composite literal is built. -/
def ConsensusParamsFromProto (pbParams : cmproto.ConsensusParams) :
    Option cmtypes.ConsensusParams :=
  match pbParams.Block, pbParams.Validator, pbParams.Version with
  | some b, some v, some ver =>
    let c : cmtypes.ConsensusParams :=
      { Block := { MaxBytes := b.MaxBytes, MaxGas := b.MaxGas }
        Validator := { PubKeyTypes := v.PubKeyTypes }
        Version := { App := ver.App } }
    match pbParams.Abci with
    | some a =>
      some { c with
             ABCI := { c.ABCI with VoteExtensionsEnableHeight := a.VoteExtensionsEnableHeight } }
    | none => some c
  | _, _, _ => none

/-! ## Concrete inputs

The inputs of `serialization_test.go`, and an instance of the external
conversions for evaluating the functions on them. -/

def sampleValidatorToProto (v : cmtypes.Validator) : cmproto.Validator :=
  { Address := v.Address, PubKey := v.PubKey, VotingPower := v.VotingPower
    ProposerPriority := v.ProposerPriority }

def sampleValidatorFromProto (v : cmproto.Validator) : cmtypes.Validator :=
  { Address := v.Address, PubKey := v.PubKey, VotingPower := v.VotingPower
    ProposerPriority := v.ProposerPriority }

/-- An instance of `ValidatorSet.ToProto`: as in cometbft, a nil or empty
validator set becomes an empty, non-nil message. -/
def sampleValidatorSetToProto : ValidatorSetEncoder := fun vals =>
  match vals with
  | none => .ok (some {})
  | some x =>
    if x.Validators.len = 0 then .ok (some {})
    else
      .ok (some { Validators := x.Validators.map (List.map sampleValidatorToProto)
                  Proposer := x.Proposer.map sampleValidatorToProto })

/-- An instance of `ValidatorSetFromProto`: a message without a proposer is
rejected. -/
def sampleValidatorSetFromProto : ValidatorSetDecoder := fun vp =>
  match vp.Proposer with
  | none => .error "nil validator"
  | some p =>
    .ok { Validators := vp.Validators.map (List.map sampleValidatorFromProto)
          Proposer := some (sampleValidatorFromProto p) }

/-- A validator-set decoder that rejects every message. -/
def rejectingValidatorSetFromProto : ValidatorSetDecoder := fun _ =>
  .error "invalid validator set"

def sampleBlockIDToProto : BlockIDEncoder := fun id =>
  { Hash := id.Hash
    PartSetHeader := { Total := id.PartSetHeader.Total, Hash := id.PartSetHeader.Hash } }

def sampleBlockIDFromProto : BlockIDDecoder := fun bID =>
  .ok { Hash := bID.Hash
        PartSetHeader := { Total := bID.PartSetHeader.Total, Hash := bID.PartSetHeader.Hash } }

/-- The 32-byte hash `h[k]` of the block test, with fixed bytes. -/
def testHash (k : Nat) : Hash := some ((List.range 32).map (fun i => 8 * i + k))

/-- The header `h1` of `TestBlockSerializationRoundTrip`. -/
def testHeader : Header :=
  { Version := { Block := 1, App := 2 }
    BaseHeader := { Height := 3, Time := 4567 }
    LastHeaderHash := testHash 0
    LastCommitHash := testHash 1
    DataHash := testHash 2
    ConsensusHash := testHash 3
    AppHash := testHash 4
    LastResultsHash := testHash 5
    ProposerAddress := some [4, 3, 2, 1] }

def testValidator1 : cmtypes.Validator :=
  { Address := some [10, 11, 12], PubKey := some [1, 2, 3, 4] }

def testValidator2 : cmtypes.Validator :=
  { Address := some [20, 21, 22], PubKey := some [5, 6, 7, 8] }

/-- The case "full" of `TestBlockSerializationRoundTrip`. -/
def testFullBlock : Block :=
  { SignedHeader :=
      { Header := testHeader
        Commit := { Signatures := some [some [1, 1, 1], some [2, 2, 2]] }
        Validators :=
          some { Validators := some [testValidator1, testValidator2]
                 Proposer := some testValidator1 } }
    Data :=
      { Txs := none
        IntermediateStateRoots := { RawRootsList := some [some [1]] } } }

/-- A header whose proposer address is an empty, non-nil byte string. -/
def emptyAddressHeader : Header := { ProposerAddress := some [] }

/-- A data record whose transaction sequence is empty and non-nil. -/
def emptyTxsData : Data := { Txs := some [] }

/-- A block that is zero except for an empty, non-nil transaction sequence. -/
def emptyTxsBlock : Block := { Data := emptyTxsData }

/-- What the guarded validator-set decode of `SignedHeader.FromProto` has to
give for the validator set `v` to come back from the wire field `wv`: nothing
decoded when `v` is absent, `v` itself when it is present. -/
def validatorsComeBack (dec : ValidatorSetDecoder) (v : Option cmtypes.ValidatorSet)
    (wv : Option cmproto.ValidatorSet) : Prop :=
  match v with
  | none => validatorsToDecode wv = none
  | some x => ∃ w, validatorsToDecode wv = some w ∧ dec w = .ok x

/-- A wire signed header whose header carries a version and whose commit
sub-message is nil. -/
def noCommitSignedHeader : pb.SignedHeader :=
  { Header := some { Version := some {} }, Commit := none, Validators := none }

/-- A wire signed header without header sub-message, whose validator set
carries a proposer. -/
def noHeaderSignedHeader : pb.SignedHeader :=
  { Header := none, Commit := some {}
    Validators := some { Validators := some [{}], Proposer := some {} } }

/-- A wire signed header with header and commit, whose validator set has a
validator list and no proposer. -/
def noProposerSignedHeader : pb.SignedHeader :=
  { Header := some testHeader.ToProto
    Commit := some { Signatures := some [some [1, 1, 1]] }
    Validators := some { Validators := some [{ Address := some [10, 11, 12] }] } }

/-- A wire signed header with header and commit, whose validator set carries
a proposer. -/
def withProposerSignedHeader : pb.SignedHeader :=
  { Header := some testHeader.ToProto
    Commit := some { Signatures := some [some [1, 1, 1]] }
    Validators :=
      some { Validators := some [{ Address := some [10, 11, 12] }]
             Proposer := some { Address := some [10, 11, 12] } } }

/-- The case "with all fields set" of `TestStateRoundTrip`. -/
def testState : State :=
  { Version := { Consensus := { Block := 123, App := 456 }, Software := "rollkit" }
    ChainID := "testchain"
    InitialHeight := 987
    LastBlockHeight := 987654321
    LastBlockID := { Hash := none, PartSetHeader := { Total := 0, Hash := none } }
    LastBlockTime := { sec := 1654517553, nsec := 44 }
    DAHeight := 3344
    ConsensusParams :=
      { Block := some { MaxBytes := 12345, MaxGas := 6543234 }
        Evidence := some { MaxAgeNumBlocks := 100, MaxAgeDuration := 200, MaxBytes := 300 }
        Validator := some { PubKeyTypes := some ["secure", "more secure"] }
        Version := some { App := 42 } }
    LastHeightConsensusParamsChanged := 12345
    LastResultsHash :=
      some [1, 2, 3, 4, 5, 6, 7, 8, 9, 0, 1, 2, 3, 4, 5, 6, 7, 8, 9, 0, 1, 2, 3, 4, 5, 6, 7, 8,
        9, 0, 1, 2]
    AppHash :=
      some [0, 1, 2, 3, 4, 5, 6, 7, 8, 9, 0, 1, 2, 3, 4, 5, 6, 7, 8, 9, 0, 1, 2, 3, 4, 5, 6, 7,
        8, 9, 0, 1] }

/-- The input of `TestConsensusParamsFromProto`. -/
def testPbParams : cmproto.ConsensusParams :=
  { Block := some { MaxBytes := 12345, MaxGas := 67890 }
    Validator := some { PubKeyTypes := some ["ed25519"] }
    Version := some { App := 42 } }

/-- The test input with an ABCI sub-message and an evidence sub-message. -/
def testPbParamsAbci : cmproto.ConsensusParams :=
  { testPbParams with
    Abci := some { VoteExtensionsEnableHeight := 77 }
    Evidence := some { MaxAgeNumBlocks := 100, MaxAgeDuration := 200, MaxBytes := 300 } }

/-- A wire commit whose signature list is empty and non-nil. -/
def emptySignaturesCommit : pb.Commit := { Signatures := some [] }

/-- A block-id decoder that rejects every wire block id. -/
def rejectingBlockIDFromProto : BlockIDDecoder := fun _ => .error "invalid block id"

/-- A wire state with a version sub-message. -/
def testPbState : pb.State :=
  { Version := some { Consensus := { Block := 123, App := 456 }, Software := "rollkit" }
    ChainId := "testchain"
    InitialHeight := 987
    LastBlockHeight := 987654321
    LastBlockID := { Hash := some [1, 2], PartSetHeader := { Total := 1, Hash := some [3] } }
    LastBlockTime := { sec := 1654517553, nsec := 44 }
    DAHeight := 3344
    ConsensusParams := testPbParams
    LastHeightConsensusParamsChanged := 12345
    LastResultsHash := some [1, 2, 3]
    AppHash := some [4, 5, 6] }

/-- A wire header with a version and hash fields of lengths 0 (empty), 32, 3,
0 (nil), 1 and 33. -/
def mixedHashesHeader : pb.Header :=
  { Version := some { Block := 1, App := 2 }
    LastHeaderHash := some []
    LastCommitHash := testHash 1
    DataHash := some [1, 2, 3]
    ConsensusHash := none
    AppHash := some [255]
    LastResultsHash := some ((List.range 33).map (fun i => i)) }

/-- A wire signed header whose header has no version sub-message (and an empty
proposer address) and whose validator-set field is null. -/
def noVersionSignedHeader : pb.SignedHeader :=
  { Header := some {}, Commit := some {}, Validators := none }

/-- A wire signed header with version and commit, an empty proposer address,
and a validator set that has a validator and no proposer. -/
def omittingSignedHeader : pb.SignedHeader :=
  { Header := some { Version := some { Block := 9 }, Height := 7 }
    Commit := some {}
    Validators := some { Validators := some [{}] } }

/-! ## Lemmas on the Go primitives -/

theorem assignLoop_length {α : Type} (zero : α) (n : Nat) (src dst : List α) :
    (assignLoop zero n src dst).length = dst.length := by
  unfold assignLoop
  induction n generalizing dst with
  | zero => simp
  | succ k ih =>
    simp only [List.range_succ, List.foldl_append, List.foldl_cons, List.foldl_nil,
      List.length_set]
    exact ih dst

theorem assignLoop_getD {α : Type} (zero : α) (n : Nat) (src dst : List α)
    (hn : n ≤ dst.length) (i : Nat) :
    (assignLoop zero n src dst).getD i zero =
      if i < n then src.getD i zero else dst.getD i zero := by
  unfold assignLoop
  induction n with
  | zero => simp
  | succ k ih =>
    have hk : k ≤ dst.length := by omega
    have hlen := assignLoop_length zero k src dst
    unfold assignLoop at hlen
    simp only [List.range_succ, List.foldl_append, List.foldl_cons, List.foldl_nil]
    by_cases hik : i = k
    · subst hik
      have hi : i < (List.foldl (fun acc j => acc.set j (src.getD j zero)) dst
          (List.range i)).length := by rw [hlen]; omega
      rw [List.getD_eq_getElem?_getD, List.getElem?_set_self hi]
      simp
    · rw [List.getD_eq_getElem?_getD, List.getElem?_set_ne (Ne.symm hik),
        ← List.getD_eq_getElem?_getD, ih hk]
      by_cases h1 : i < k
      · simp [h1, Nat.lt_succ_of_lt h1]
      · have h2 : ¬ i < k + 1 := by omega
        simp [h1, h2]

/-- The copy loop of the four adapters rebuilds its source. -/
theorem assignLoop_make {α : Type} (zero : α) (l : List α) :
    assignLoop zero l.length l (makeSlice zero l.length) = l := by
  apply List.ext_getElem
  · simp [assignLoop_length, makeSlice]
  · intro i h1 h2
    have h := assignLoop_getD zero l.length l (makeSlice zero l.length)
      (by simp [makeSlice]) i
    rw [if_pos h2] at h
    rw [List.getD_eq_getElem?_getD, List.getD_eq_getElem?_getD,
      List.getElem?_eq_getElem h1, List.getElem?_eq_getElem h2] at h
    simpa using h

theorem goCopy_make {α : Type} (zero : α) (src : List α) :
    goCopy (makeSlice zero src.length) src = src := by
  simp [goCopy, makeSlice]

@[simp] theorem slice_full_eq {α : Type} (s : Slice α) : s.full = s := by
  cases s <;> rfl

@[simp] theorem signaturesToByteSlices_eq (sigs : Slice Signature) :
    signaturesToByteSlices sigs = sigs := by
  cases sigs with
  | none => rfl
  | some l => simp [signaturesToByteSlices, assignLoop_make]

@[simp] theorem byteSlicesToSignatures_eq (bytes : Slice Bytes) :
    byteSlicesToSignatures bytes = bytes := by
  cases bytes with
  | none => rfl
  | some l => simp [byteSlicesToSignatures, assignLoop_make]

@[simp] theorem txsToByteSlices_eq (txs : Txs) : txsToByteSlices txs = txs := by
  cases txs with
  | none => rfl
  | some l => simp [txsToByteSlices, assignLoop_make]

theorem byteSlicesToTxs_eq (bytes : Slice Bytes) :
    byteSlicesToTxs bytes = if bytes.len = 0 then none else bytes := by
  cases bytes with
  | none => rfl
  | some l => simp [byteSlicesToTxs, assignLoop_make]

theorem byteSlicesToTxs_of_ne (bytes : Slice Bytes) (h : bytes ≠ some []) :
    byteSlicesToTxs bytes = bytes := by
  rw [byteSlicesToTxs_eq]
  cases bytes with
  | none => rfl
  | some l =>
    cases l with
    | nil => exact absurd rfl h
    | cons a t => simp [Slice.len]

theorem commit_fromProto_toProto (c : Commit) :
    Commit.FromProto {} (some c.ToProto) = (c, Outcome.ok) := by
  simp [Commit.FromProto, Commit.ToProto]

theorem data_fromProto_toProto (d : Data) (h : d.Txs ≠ some []) :
    Data.FromProto {} (some d.ToProto) = (d, Outcome.ok) := by
  simp [Data.FromProto, Data.ToProto, byteSlicesToTxs_of_ne _ h]

theorem header_fromProto_toProto (h : Header) (hp : h.ProposerAddress ≠ some []) :
    Header.FromProto {} (some h.ToProto) = (h, Outcome.ok) := by
  obtain ⟨bh, v, a, b, c, d, e, f, pa⟩ := h
  cases pa with
  | none => simp [Header.FromProto, Header.ToProto, Slice.len]
  | some l =>
    cases l with
    | nil => exact absurd rfl hp
    | cons x t =>
      have hc := goCopy_make 0 (x :: t)
      simp only [List.length_cons] at hc
      simp [Header.FromProto, Header.ToProto, Slice.len, hc]

/-! ## Commit and transaction lists -/

/-- C3. Decoding the wire form of a commit into a fresh commit returns no error
and gives back the commit: the signatures are the same, in the same order; a
nil signature sequence comes back nil and an empty non-nil one comes back empty
non-nil. -/
theorem commit_roundtrip (c : Commit) :
    Commit.FromProto {} (some c.ToProto) = (c, Outcome.ok) ∧
    (Commit.FromProto {} (some (Commit.ToProto { Signatures := none }))).1.Signatures = none ∧
    (Commit.FromProto {} (some (Commit.ToProto { Signatures := some [] }))).1.Signatures
      = some [] := by
  refine ⟨commit_fromProto_toProto c, ?_, ?_⟩ <;> simp [Commit.FromProto, Commit.ToProto]

/-- C5. Converting a transaction sequence to the wire list and back keeps the
length and the payload at every index, and the nil sequence comes back nil. -/
theorem txs_roundtrip (txs : Txs) :
    (byteSlicesToTxs (txsToByteSlices txs)).len = txs.len ∧
    (∀ i, (byteSlicesToTxs (txsToByteSlices txs)).at? i = txs.at? i) ∧
    byteSlicesToTxs (txsToByteSlices none) = none := by
  rw [txsToByteSlices_eq, byteSlicesToTxs_eq]
  refine ⟨?_, ?_, rfl⟩
  · split
    · next h => exact h.symm
    · rfl
  · intro i
    split
    · next h =>
      cases txs with
      | none => rfl
      | some l =>
        have hl : l = [] := List.length_eq_zero.mp h
        subst hl
        rfl
    · rfl

/-! ## Data and Header -/

/-- C4 (as stated, refuted). A data record with an empty non-nil transaction
sequence is encoded and decoded into a fresh record without error, and the
transaction sequence comes back nil: the result differs from the input. -/
theorem data_roundtrip_empty_txs :
    Data.FromProto {} (some emptyTxsData.ToProto) = ({ Txs := none }, Outcome.ok) ∧
    (Data.FromProto {} (some emptyTxsData.ToProto)).1 ≠ emptyTxsData := by
  constructor
  · simp [Data.FromProto, Data.ToProto, emptyTxsData, byteSlicesToTxs_eq, Slice.len]
  · simp [Data.FromProto, Data.ToProto, emptyTxsData, byteSlicesToTxs_eq, Slice.len]

/-- C4 (amended). For every data record whose transaction sequence is nil or
non-empty, decoding its wire form into a fresh record returns no error and
gives back the record, transactions and intermediate state roots in the same
order, a nil transaction sequence coming back nil; and whatever the other
fields, an empty non-nil transaction sequence comes back nil. -/
theorem data_roundtrip (d : Data) (h : d.Txs ≠ some []) :
    Data.FromProto {} (some d.ToProto) = (d, Outcome.ok) ∧
    (Data.FromProto {} (some (Data.ToProto { d with Txs := some [] }))).1.Txs = none := by
  constructor
  · exact data_fromProto_toProto d h
  · simp [Data.FromProto, Data.ToProto, byteSlicesToTxs_eq, Slice.len]

/-- The data record of the test block "full" (nil transactions, one state root)
comes back unchanged. -/
theorem data_roundtrip_witness :
    testFullBlock.Data.Txs ≠ some [] ∧
    Data.FromProto {} (some testFullBlock.Data.ToProto) = (testFullBlock.Data, Outcome.ok) :=
  ⟨by decide, (data_roundtrip testFullBlock.Data (by decide)).1⟩

/-- C6 (as stated, refuted). A header whose proposer address is an empty
non-nil byte string is encoded and decoded into a fresh header without error,
and the proposer address comes back nil: the result differs from the input. -/
theorem header_roundtrip_empty_address :
    Header.FromProto {} (some emptyAddressHeader.ToProto) = ({}, Outcome.ok) ∧
    (Header.FromProto {} (some emptyAddressHeader.ToProto)).1 ≠ emptyAddressHeader := by
  constructor
  · simp [Header.FromProto, Header.ToProto, emptyAddressHeader, Slice.len]
  · simp [Header.FromProto, Header.ToProto, emptyAddressHeader, Slice.len]

/-- C6 (amended). For every header whose proposer address is nil or non-empty,
decoding its wire form into a fresh header returns no error and gives back the
header in every field, nil and empty hash fields distinguished; and whatever
the other fields, an empty non-nil proposer address comes back nil. -/
theorem header_roundtrip (h : Header) (hp : h.ProposerAddress ≠ some []) :
    Header.FromProto {} (some h.ToProto) = (h, Outcome.ok) ∧
    (Header.FromProto {}
      (some (Header.ToProto { h with ProposerAddress := some [] }))).1.ProposerAddress
      = none := by
  constructor
  · exact header_fromProto_toProto h hp
  · simp [Header.FromProto, Header.ToProto, Slice.len]

/-- The header of the block test comes back unchanged. -/
theorem header_roundtrip_witness :
    testHeader.ProposerAddress ≠ some [] ∧
    Header.FromProto {} (some testHeader.ToProto) = (testHeader, Outcome.ok) :=
  ⟨by decide, (header_roundtrip testHeader (by decide)).1⟩

/-! ## SignedHeader and Block -/

theorem header_fromProto_ok (h : Header) (o : pb.Header) (ver : pb.Version)
    (hv : o.Version = some ver) :
    ∃ h1, Header.FromProto h (some o) = (h1, Outcome.ok) := by
  simp only [Header.FromProto, hv]
  split
  · split
    · exact ⟨_, rfl⟩
    · exact ⟨_, rfl⟩
  · exact ⟨_, rfl⟩

/-- With a header that carries a version and a non-nil commit, the call gets
to the validator set: the outcome is that of the guarded decode. -/
theorem signedHeader_fromProto_eq (dec : ValidatorSetDecoder) (sh : SignedHeader)
    (o : pb.SignedHeader) (hd : pb.Header) (ver : pb.Version) (c : pb.Commit)
    (hh : o.Header = some hd) (hv : hd.Version = some ver) (hc : o.Commit = some c) :
    SignedHeader.FromProto dec sh (some o) =
      match validatorsToDecode o.Validators with
      | some w =>
        match dec w with
        | .error e =>
          ({ sh with Header := (sh.Header.FromProto (some hd)).1
                     Commit := (sh.Commit.FromProto (some c)).1 }, Outcome.err e)
        | .ok v =>
          ({ Header := (sh.Header.FromProto (some hd)).1
             Commit := (sh.Commit.FromProto (some c)).1
             Validators := some v }, Outcome.ok)
      | none =>
        ({ sh with Header := (sh.Header.FromProto (some hd)).1
                   Commit := (sh.Commit.FromProto (some c)).1 }, Outcome.ok) := by
  obtain ⟨h1, hout⟩ := header_fromProto_ok sh.Header hd ver hv
  simp only [SignedHeader.FromProto, hh, hc, hout, Commit.FromProto]

theorem header_fromProto_ne_err (h : Header) (o : Option pb.Header) (e : Error) :
    (Header.FromProto h o).2 ≠ Outcome.err e := by
  cases o with
  | none => simp [Header.FromProto]
  | some x =>
    cases hv : x.Version with
    | none => simp [Header.FromProto, hv]
    | some ver =>
      obtain ⟨h1, hout⟩ := header_fromProto_ok h x ver hv
      simp [hout]

/-- An error of `SignedHeader.FromProto` is an error of the validator-set
decoder, met after header and commit were decoded. -/
theorem signedHeader_fromProto_err (dec : ValidatorSetDecoder) (sh : SignedHeader)
    (o : Option pb.SignedHeader) (e : Error)
    (h : (SignedHeader.FromProto dec sh o).2 = Outcome.err e) :
    ∃ sp hd ver c w, o = some sp ∧ sp.Header = some hd ∧ hd.Version = some ver ∧
      sp.Commit = some c ∧ validatorsToDecode sp.Validators = some w ∧ dec w = .error e := by
  cases o with
  | none => simp [SignedHeader.FromProto] at h
  | some sp =>
    cases hh : sp.Header with
    | none => simp [SignedHeader.FromProto, Header.FromProto, hh] at h
    | some hd =>
      cases hv : hd.Version with
      | none => simp [SignedHeader.FromProto, Header.FromProto, hh, hv] at h
      | some ver =>
        cases hc : sp.Commit with
        | none =>
          obtain ⟨h1, hout⟩ := header_fromProto_ok sh.Header hd ver hv
          simp [SignedHeader.FromProto, Commit.FromProto, hh, hc, hout] at h
        | some c =>
          rw [signedHeader_fromProto_eq dec sh sp hd ver c hh hv hc] at h
          cases hw : validatorsToDecode sp.Validators with
          | none => simp [hw] at h
          | some w =>
            cases hd' : dec w with
            | error e' =>
              simp [hw, hd'] at h
              exact ⟨sp, hd, ver, c, w, rfl, hh, hv, hc, hw, by rw [hd', h]⟩
            | ok v => simp [hw, hd'] at h

theorem block_fromProto_of_not_ok (dec : ValidatorSetDecoder) (b : Block) (o : pb.Block)
    (h : (SignedHeader.FromProto dec b.SignedHeader o.SignedHeader).2 ≠ Outcome.ok) :
    Block.FromProto dec b (some o) =
      ({ b with SignedHeader := (SignedHeader.FromProto dec b.SignedHeader o.SignedHeader).1 },
        (SignedHeader.FromProto dec b.SignedHeader o.SignedHeader).2) := by
  rcases hr : SignedHeader.FromProto dec b.SignedHeader o.SignedHeader with ⟨s1, out⟩
  rw [hr] at h
  cases out with
  | ok => exact absurd rfl h
  | err e => simp only [Block.FromProto, hr]
  | nilDeref => simp only [Block.FromProto, hr]

theorem validatorsToDecode_of_proposer (w : cmproto.ValidatorSet) (hp : w.Proposer.isSome) :
    validatorsToDecode (some w) = some w := by
  simp [validatorsToDecode, hp]

/-- C2 (as stated, refuted). A wire signed header whose header carries a version
and whose validator-set field is null, but whose commit sub-message is nil:
`SignedHeader.FromProto` on a fresh receiver does not return; it faults on the
nil commit. -/
theorem signed_header_nil_commit_faults :
    noCommitSignedHeader.Header = some { Version := some {} } ∧
    noCommitSignedHeader.Validators = none ∧
    (SignedHeader.FromProto sampleValidatorSetFromProto {} (some noCommitSignedHeader)).2
      = Outcome.nilDeref ∧
    (SignedHeader.FromProto sampleValidatorSetFromProto {} (some noCommitSignedHeader)).2
      ≠ Outcome.ok := by
  refine ⟨rfl, rfl, ?_, ?_⟩ <;>
    simp [SignedHeader.FromProto, Header.FromProto, Commit.FromProto, noCommitSignedHeader,
      Slice.len]

/-- C2 (amended). For every wire signed header whose header carries a version
and whose commit sub-message is non-nil: when the wire validator set is null,
or non-null with a null proposer (whatever its validator list),
`SignedHeader.FromProto` on a fresh receiver returns no error and leaves
`Validators` nil, and the result is the same for every validator-set decoder
(the decoder is not consulted). -/
theorem signed_header_validators_guard (dec : ValidatorSetDecoder) (o : pb.SignedHeader)
    (hd : pb.Header) (ver : pb.Version) (c : pb.Commit)
    (hh : o.Header = some hd) (hv : hd.Version = some ver) (hc : o.Commit = some c)
    (hg : o.Validators = none ∨ ∃ w, o.Validators = some w ∧ w.Proposer = none) :
    (SignedHeader.FromProto dec {} (some o)).2 = Outcome.ok ∧
    (SignedHeader.FromProto dec {} (some o)).1.Validators = none ∧
    ∀ dec2 : ValidatorSetDecoder,
      SignedHeader.FromProto dec2 {} (some o) = SignedHeader.FromProto dec {} (some o) := by
  have hn : validatorsToDecode o.Validators = none := by
    rcases hg with h | ⟨w, hw, hp⟩
    · rw [h]; rfl
    · rw [hw]; simp [validatorsToDecode, hp]
  refine ⟨?_, ?_, ?_⟩
  · rw [signedHeader_fromProto_eq dec {} o hd ver c hh hv hc, hn]
  · rw [signedHeader_fromProto_eq dec {} o hd ver c hh hv hc, hn]
  · intro dec2
    rw [signedHeader_fromProto_eq dec {} o hd ver c hh hv hc,
      signedHeader_fromProto_eq dec2 {} o hd ver c hh hv hc, hn]

/-- A validator set with one validator and no proposer is not handed to the
decoder: a decoder that rejects everything is not heard. -/
theorem signed_header_validators_guard_witness :
    noProposerSignedHeader.Validators
      = some { Validators := some [{ Address := some [10, 11, 12] }], Proposer := none } ∧
    (SignedHeader.FromProto rejectingValidatorSetFromProto {}
      (some noProposerSignedHeader)).2 = Outcome.ok ∧
    (SignedHeader.FromProto rejectingValidatorSetFromProto {}
      (some noProposerSignedHeader)).1.Validators = none :=
  have h := signed_header_validators_guard rejectingValidatorSetFromProto
    noProposerSignedHeader testHeader.ToProto { Block := 1, App := 2 }
    { Signatures := some [some [1, 1, 1]] } rfl rfl rfl (Or.inr ⟨_, rfl, rfl⟩)
  ⟨rfl, h.1, h.2.1⟩

/-- C8 (as stated, refuted). A wire signed header whose validator set carries a
proposer and whose header sub-message is nil: the decoder rejects the validator
set, yet `SignedHeader.FromProto` returns no error; it faults on the nil header
before the decoder is reached. -/
theorem signed_header_nil_header_faults :
    validatorsToDecode noHeaderSignedHeader.Validators
      = some { Validators := some [{}], Proposer := some {} } ∧
    rejectingValidatorSetFromProto { Validators := some [{}], Proposer := some {} }
      = .error "invalid validator set" ∧
    SignedHeader.FromProto rejectingValidatorSetFromProto {} (some noHeaderSignedHeader)
      = ({}, Outcome.nilDeref) := by
  refine ⟨rfl, rfl, ?_⟩
  simp [SignedHeader.FromProto, Header.FromProto, noHeaderSignedHeader]

/-- C8 (amended). For every wire signed header whose header carries a version,
whose commit sub-message is non-nil and whose validator set is non-null with a
non-null proposer: `SignedHeader.FromProto` returns the error `e` exactly when
the validator-set decoder rejects the wire validator set with `e`;
`Block.FromProto` returns that same error for every wire block containing the
signed header; and when the decoder accepts, the call returns no error and
`Validators` is the decoder's output. -/
theorem validator_set_error_propagates (dec : ValidatorSetDecoder) (sh : SignedHeader)
    (o : pb.SignedHeader) (hd : pb.Header) (ver : pb.Version) (c : pb.Commit)
    (w : cmproto.ValidatorSet)
    (hh : o.Header = some hd) (hv : hd.Version = some ver) (hc : o.Commit = some c)
    (hw : o.Validators = some w) (hp : w.Proposer.isSome) :
    (∀ e, (SignedHeader.FromProto dec sh (some o)).2 = Outcome.err e ↔ dec w = .error e) ∧
    (∀ e (b : Block) (d : Option pb.Data), dec w = .error e →
      (Block.FromProto dec b (some { SignedHeader := some o, Data := d })).2
        = Outcome.err e) ∧
    (∀ v, dec w = .ok v →
      (SignedHeader.FromProto dec sh (some o)).2 = Outcome.ok ∧
      (SignedHeader.FromProto dec sh (some o)).1.Validators = some v) := by
  have hg : validatorsToDecode o.Validators = some w := by
    rw [hw]; exact validatorsToDecode_of_proposer w hp
  have key := signedHeader_fromProto_eq dec sh o hd ver c hh hv hc
  rw [hg] at key
  have herr : ∀ (r : SignedHeader) e, dec w = .error e →
      (SignedHeader.FromProto dec r (some o)).2 = Outcome.err e := by
    intro r e he
    rw [signedHeader_fromProto_eq dec r o hd ver c hh hv hc, hg]; simp only [he]
  refine ⟨?_, ?_, ?_⟩
  · intro e
    constructor
    · intro h
      rw [key] at h
      cases hdw : dec w with
      | error e2 =>
        simp only [hdw] at h
        injection h with h'
        rw [h']
      | ok v => simp [hdw] at h
    · exact herr sh e
  · intro e b d he
    have h1 : (SignedHeader.FromProto dec b.SignedHeader (some o)).2 ≠ Outcome.ok := by
      rw [herr b.SignedHeader e he]; simp
    rw [block_fromProto_of_not_ok dec b { SignedHeader := some o, Data := d } h1]
    exact herr b.SignedHeader e he
  · intro v hv2
    rw [key]; simp only [hv2, and_self]

/-- A proposer-bearing validator set and a rejecting decoder: the error of the
decoder comes out of both `FromProto` calls. -/
theorem validator_set_error_propagates_witness :
    (SignedHeader.FromProto rejectingValidatorSetFromProto {}
      (some withProposerSignedHeader)).2 = Outcome.err "invalid validator set" ∧
    (Block.FromProto rejectingValidatorSetFromProto {}
      (some { SignedHeader := some withProposerSignedHeader, Data := some {} })).2
      = Outcome.err "invalid validator set" :=
  have h := validator_set_error_propagates rejectingValidatorSetFromProto {}
    withProposerSignedHeader testHeader.ToProto { Block := 1, App := 2 }
    { Signatures := some [some [1, 1, 1]] }
    { Validators := some [{ Address := some [10, 11, 12] }]
      Proposer := some { Address := some [10, 11, 12] } } rfl rfl rfl rfl rfl
  ⟨(h.1 "invalid validator set").2 rfl, h.2.1 "invalid validator set" {} (some {}) rfl⟩

/-- C9 (as stated, refuted). A fresh receiver and a wire signed header whose
validator set the decoder rejects: `SignedHeader.FromProto` returns the error,
and the header and commit of the receiver are no longer what they were; they
hold the decoded wire header and commit. -/
theorem signed_header_error_overwrites_header :
    SignedHeader.FromProto rejectingValidatorSetFromProto {} (some withProposerSignedHeader)
      = ({ Header := testHeader, Commit := { Signatures := some [some [1, 1, 1]] } },
          Outcome.err "invalid validator set") ∧
    (SignedHeader.FromProto rejectingValidatorSetFromProto {}
      (some withProposerSignedHeader)).1.Header ≠ ({} : SignedHeader).Header ∧
    (SignedHeader.FromProto rejectingValidatorSetFromProto {}
      (some withProposerSignedHeader)).1.Commit ≠ ({} : SignedHeader).Commit := by
  have hr : SignedHeader.FromProto rejectingValidatorSetFromProto {}
      (some withProposerSignedHeader)
      = ({ Header := testHeader, Commit := { Signatures := some [some [1, 1, 1]] } },
          Outcome.err "invalid validator set") := by
    rw [signedHeader_fromProto_eq rejectingValidatorSetFromProto {} withProposerSignedHeader
      testHeader.ToProto { Block := 1, App := 2 } { Signatures := some [some [1, 1, 1]] }
      rfl rfl rfl]
    have hh : Header.FromProto ({} : SignedHeader).Header (some testHeader.ToProto)
        = (testHeader, Outcome.ok) := header_fromProto_toProto testHeader (by decide)
    have hc : Commit.FromProto ({} : SignedHeader).Commit
        (some { Signatures := some [some [1, 1, 1]] })
        = ({ Signatures := some [some [1, 1, 1]] }, Outcome.ok) :=
      commit_fromProto_toProto { Signatures := some [some [1, 1, 1]] }
    rw [hh, hc]
    rfl
  refine ⟨hr, ?_, ?_⟩
  · rw [hr]; decide
  · rw [hr]; decide

/-- C9 (amended). Whenever `SignedHeader.FromProto` returns an error, the
receiver's `Validators` is exactly what it was before the call, while its
`Header` and `Commit` hold what was decoded from the wire header and commit;
and `Block.FromProto` on a wire block containing that signed header returns
the same error, with `Data` and `Validators` of the receiver exactly what they
were before the call. -/
theorem decode_error_keeps_validators (dec : ValidatorSetDecoder) (sh : SignedHeader)
    (o : pb.SignedHeader) (e : Error)
    (h : (SignedHeader.FromProto dec sh (some o)).2 = Outcome.err e) :
    (SignedHeader.FromProto dec sh (some o)).1.Validators = sh.Validators ∧
    (SignedHeader.FromProto dec sh (some o)).1.Header = (sh.Header.FromProto o.Header).1 ∧
    (SignedHeader.FromProto dec sh (some o)).1.Commit = (sh.Commit.FromProto o.Commit).1 ∧
    ∀ (d : Data) (wd : Option pb.Data),
      (Block.FromProto dec { SignedHeader := sh, Data := d }
        (some { SignedHeader := some o, Data := wd })).2 = Outcome.err e ∧
      (Block.FromProto dec { SignedHeader := sh, Data := d }
        (some { SignedHeader := some o, Data := wd })).1.Data = d ∧
      (Block.FromProto dec { SignedHeader := sh, Data := d }
        (some { SignedHeader := some o, Data := wd })).1.SignedHeader.Validators
        = sh.Validators := by
  obtain ⟨sp, hd, ver, c, w, hsp, hh, hv, hc, hw, hdw⟩ :=
    signedHeader_fromProto_err dec sh (some o) e h
  cases hsp
  have key := signedHeader_fromProto_eq dec sh o hd ver c hh hv hc
  simp only [hw, hdw] at key
  have hval : (SignedHeader.FromProto dec sh (some o)).1.Validators = sh.Validators := by
    rw [key]
  refine ⟨hval, ?_, ?_, ?_⟩
  · rw [key, hh]
  · rw [key, hc]
  · intro d wd
    have h1 : (SignedHeader.FromProto dec
        ({ SignedHeader := sh, Data := d } : Block).SignedHeader
        ({ SignedHeader := some o, Data := wd } : pb.Block).SignedHeader).2 ≠ Outcome.ok := by
      show (SignedHeader.FromProto dec sh (some o)).2 ≠ Outcome.ok
      rw [h]; simp
    rw [block_fromProto_of_not_ok dec { SignedHeader := sh, Data := d }
      { SignedHeader := some o, Data := wd } h1]
    exact ⟨h, rfl, hval⟩

/-- A populated receiver keeps its validator set when the decoder rejects the
wire validator set. -/
theorem decode_error_keeps_validators_witness :
    (SignedHeader.FromProto rejectingValidatorSetFromProto
      testFullBlock.SignedHeader (some withProposerSignedHeader)).2
      = Outcome.err "invalid validator set" ∧
    (SignedHeader.FromProto rejectingValidatorSetFromProto
      testFullBlock.SignedHeader (some withProposerSignedHeader)).1.Validators
      = testFullBlock.SignedHeader.Validators :=
  have h : (SignedHeader.FromProto rejectingValidatorSetFromProto
      testFullBlock.SignedHeader (some withProposerSignedHeader)).2
      = Outcome.err "invalid validator set" := by
    rw [signedHeader_fromProto_eq rejectingValidatorSetFromProto testFullBlock.SignedHeader
      withProposerSignedHeader testHeader.ToProto { Block := 1, App := 2 }
      { Signatures := some [some [1, 1, 1]] } rfl rfl rfl]
    rfl
  ⟨h, (decode_error_keeps_validators rejectingValidatorSetFromProto
    testFullBlock.SignedHeader withProposerSignedHeader "invalid validator set" h).1⟩

/-- C1 (as stated, refuted). The block that is zero except for an empty non-nil
transaction sequence has no validator set, `Block.ToProto` succeeds on it, and
`Block.FromProto` on a fresh block and that wire record returns no error and
yields the zero block, whose transaction sequence is nil: not the input. -/
theorem block_roundtrip_empty_txs :
    emptyTxsBlock.SignedHeader.Validators = none ∧
    Block.ToProto sampleValidatorSetToProto emptyTxsBlock
      = .ok { SignedHeader :=
                some { Header := some { Version := some {} }, Commit := some {}
                       Validators := some {} }
              Data := some { Txs := some [] } } ∧
    Block.FromProto sampleValidatorSetFromProto {}
      (some { SignedHeader :=
                some { Header := some { Version := some {} }, Commit := some {}
                       Validators := some {} }
              Data := some { Txs := some [] } })
      = ({}, Outcome.ok) ∧
    ({} : Block) ≠ emptyTxsBlock := by
  refine ⟨rfl, rfl, rfl, by decide⟩

/-- C1 (amended). For every block whose header proposer address is nil or
non-empty and whose transaction sequence is nil or non-empty, and whose
validator set the external conversion encodes without error into a wire field
that comes back through the presence guard (absent: a wire field that is null
or has no proposer; present: a wire field with a proposer that the decoder
turns back into the validator set): `Block.ToProto` succeeds, and
`Block.FromProto` on a fresh block and the wire record returns no error and
yields a block equal to the input, field for field, nil and empty collections
distinguished. -/
theorem block_roundtrip (enc : ValidatorSetEncoder) (dec : ValidatorSetDecoder) (b : Block)
    (wv : Option cmproto.ValidatorSet)
    (he : enc b.SignedHeader.Validators = .ok wv)
    (hv : validatorsComeBack dec b.SignedHeader.Validators wv)
    (hp : b.SignedHeader.Header.ProposerAddress ≠ some [])
    (ht : b.Data.Txs ≠ some []) :
    ∃ w, Block.ToProto enc b = .ok w ∧ Block.FromProto dec {} (some w) = (b, Outcome.ok) := by
  obtain ⟨⟨hdr, cm, vals⟩, dat⟩ := b
  simp only at he hv hp ht
  refine ⟨{ SignedHeader := some { Header := some hdr.ToProto, Commit := some cm.ToProto
                                   Validators := wv }
            Data := some dat.ToProto }, ?_, ?_⟩
  · simp only [Block.ToProto, SignedHeader.ToProto, he]
  · have hH : Header.FromProto ({} : SignedHeader).Header (some hdr.ToProto)
        = (hdr, Outcome.ok) := header_fromProto_toProto hdr hp
    have hC : Commit.FromProto ({} : SignedHeader).Commit (some cm.ToProto)
        = (cm, Outcome.ok) := commit_fromProto_toProto cm
    have hD : Data.FromProto ({} : Block).Data (some dat.ToProto) = (dat, Outcome.ok) :=
      data_fromProto_toProto dat ht
    have hS : SignedHeader.FromProto dec ({} : Block).SignedHeader
        (some { Header := some hdr.ToProto, Commit := some cm.ToProto, Validators := wv })
        = ({ Header := hdr, Commit := cm, Validators := vals }, Outcome.ok) := by
      rw [signedHeader_fromProto_eq dec _ _ hdr.ToProto
        { Block := hdr.Version.Block, App := hdr.Version.App } cm.ToProto rfl rfl rfl]
      simp only
      cases vals with
      | none =>
        have hn : validatorsToDecode wv = none := hv
        rw [hn]
        show (({ Header := (Header.FromProto ({} : SignedHeader).Header
          (some hdr.ToProto)).1, Commit := (Commit.FromProto ({} : SignedHeader).Commit
          (some cm.ToProto)).1, Validators := none } : SignedHeader), Outcome.ok) = _
        rw [hH, hC]
      | some x =>
        obtain ⟨w, hw, hd⟩ := hv
        rw [hw]
        simp only [hd]
        show (({ Header := (Header.FromProto ({} : SignedHeader).Header
          (some hdr.ToProto)).1, Commit := (Commit.FromProto ({} : SignedHeader).Commit
          (some cm.ToProto)).1, Validators := some x } : SignedHeader), Outcome.ok) = _
        rw [hH, hC]
    simp only [Block.FromProto, hS]
    show (({ SignedHeader := { Header := hdr, Commit := cm, Validators := vals }
             Data := (Data.FromProto ({} : Block).Data (some dat.ToProto)).1 } : Block),
           (Data.FromProto ({} : Block).Data (some dat.ToProto)).2) = _
    rw [hD]

/-- The two cases of `TestBlockSerializationRoundTrip`, "full" and "empty
block", without the byte encoding in between. -/
theorem block_roundtrip_witness :
    (∃ w, Block.ToProto sampleValidatorSetToProto testFullBlock = .ok w ∧
      Block.FromProto sampleValidatorSetFromProto {} (some w)
        = (testFullBlock, Outcome.ok)) ∧
    (∃ w, Block.ToProto sampleValidatorSetToProto {} = .ok w ∧
      Block.FromProto sampleValidatorSetFromProto {} (some w) = ({}, Outcome.ok)) :=
  ⟨block_roundtrip sampleValidatorSetToProto sampleValidatorSetFromProto testFullBlock
      (some { Validators := some [sampleValidatorToProto testValidator1,
                sampleValidatorToProto testValidator2]
              Proposer := some (sampleValidatorToProto testValidator1) })
      rfl ⟨_, rfl, rfl⟩ (by decide) (by decide),
   block_roundtrip sampleValidatorSetToProto sampleValidatorSetFromProto {}
      (some {}) rfl rfl (by decide) (by decide)⟩

/-! ## Header decode on a record without version -/

/-- C10 (the code at the failing input). On a wire header whose version
sub-message is nil, whatever its other fields and whatever the receiver,
`Header.FromProto` does not return: it faults on `other.Version.Block`, with
the receiver untouched.  The zero wire header is such a record. -/
theorem header_decode_nil_version_faults (h : Header) (o : pb.Header) :
    Header.FromProto h (some { o with Version := none }) = (h, Outcome.nilDeref) ∧
    Header.FromProto {} (some {}) = ({}, Outcome.nilDeref) := by
  constructor <;> rfl

/-! ## State -/

/-- C7. For every state whose last block id the external conversion encodes and
decodes back unchanged, `State.ToProto` returns no error, and `State.FromProto`
on a fresh state and that wire record returns no error and yields a state equal
to the input in every field. -/
theorem state_roundtrip (enc : BlockIDEncoder) (dec : BlockIDDecoder) (s : State)
    (h : dec (enc s.LastBlockID) = .ok s.LastBlockID) :
    ∃ w, State.ToProto enc s = .ok w ∧ State.FromProto dec {} (some w) = (s, Outcome.ok) := by
  refine ⟨_, rfl, ?_⟩
  simp [State.FromProto, h]

/-- The case "with all fields set" of `TestStateRoundTrip`, without the byte
encoding in between. -/
theorem state_roundtrip_witness :
    sampleBlockIDFromProto (sampleBlockIDToProto testState.LastBlockID)
      = .ok testState.LastBlockID ∧
    ∃ w, State.ToProto sampleBlockIDToProto testState = .ok w ∧
      State.FromProto sampleBlockIDFromProto {} (some w) = (testState, Outcome.ok) :=
  ⟨rfl, state_roundtrip sampleBlockIDToProto sampleBlockIDFromProto testState rfl⟩

/-! ## Consensus parameters -/

/-- With the three sub-messages it reads present, the translation returns. -/
theorem consensusParamsFromProto_eq (p : cmproto.ConsensusParams)
    (b : cmproto.BlockParams) (v : cmproto.ValidatorParams) (ver : cmproto.VersionParams)
    (hb : p.Block = some b) (hv : p.Validator = some v) (hver : p.Version = some ver) :
    ConsensusParamsFromProto p =
      some { Block := { MaxBytes := b.MaxBytes, MaxGas := b.MaxGas }
             Evidence := {}
             Validator := { PubKeyTypes := v.PubKeyTypes }
             Version := { App := ver.App }
             ABCI :=
               { VoteExtensionsEnableHeight :=
                   match p.Abci with
                   | some a => a.VoteExtensionsEnableHeight
                   | none => 0 } } := by
  simp only [ConsensusParamsFromProto, hb, hv, hver]
  cases p.Abci <;> rfl

/-- C13. For every external consensus-parameter message whose Block, Validator
and Version sub-messages are non-null, `ConsensusParamsFromProto` returns a
value with the block max-bytes and max-gas, the validator key types (same
entries, same order) and the app version of the message. -/
theorem consensus_params_verbatim (p : cmproto.ConsensusParams)
    (b : cmproto.BlockParams) (v : cmproto.ValidatorParams) (ver : cmproto.VersionParams)
    (hb : p.Block = some b) (hv : p.Validator = some v) (hver : p.Version = some ver) :
    ∃ c, ConsensusParamsFromProto p = some c ∧
      c.Block.MaxBytes = b.MaxBytes ∧ c.Block.MaxGas = b.MaxGas ∧
      c.Validator.PubKeyTypes = v.PubKeyTypes ∧ c.Version.App = ver.App :=
  ⟨_, consensusParamsFromProto_eq p b v ver hb hv hver, rfl, rfl, rfl, rfl⟩

/-- The case of `TestConsensusParamsFromProto`: max-bytes 12345, max-gas
67890, key type "ed25519", app version 42. -/
theorem consensus_params_verbatim_witness :
    ∃ c, ConsensusParamsFromProto testPbParams = some c ∧
      c.Block.MaxBytes = 12345 ∧ c.Block.MaxGas = 67890 ∧
      c.Validator.PubKeyTypes = some ["ed25519"] ∧ c.Version.App = 42 :=
  consensus_params_verbatim testPbParams { MaxBytes := 12345, MaxGas := 67890 }
    { PubKeyTypes := some ["ed25519"] } { App := 42 } rfl rfl rfl

/-- C14. For every external consensus-parameter message whose Block, Validator
and Version sub-messages are non-null, the vote-extensions-enable height of the
result is the zero value when the message carries no ABCI sub-message, and the
height of that sub-message when it carries one. -/
theorem vote_extension_height (p : cmproto.ConsensusParams)
    (b : cmproto.BlockParams) (v : cmproto.ValidatorParams) (ver : cmproto.VersionParams)
    (hb : p.Block = some b) (hv : p.Validator = some v) (hver : p.Version = some ver) :
    (∃ c, ConsensusParamsFromProto { p with Abci := none } = some c ∧
      c.ABCI.VoteExtensionsEnableHeight = 0) ∧
    (∀ a : cmproto.ABCIParams,
      ∃ c, ConsensusParamsFromProto { p with Abci := some a } = some c ∧
        c.ABCI.VoteExtensionsEnableHeight = a.VoteExtensionsEnableHeight) ∧
    ∃ c, ConsensusParamsFromProto p = some c ∧
      c.ABCI.VoteExtensionsEnableHeight =
        match p.Abci with
        | some a => a.VoteExtensionsEnableHeight
        | none => 0 := by
  refine ⟨⟨_, consensusParamsFromProto_eq { p with Abci := none } b v ver hb hv hver, rfl⟩,
    fun a => ⟨_, consensusParamsFromProto_eq { p with Abci := some a } b v ver hb hv hver,
      rfl⟩,
    ⟨_, consensusParamsFromProto_eq p b v ver hb hv hver, rfl⟩⟩

/-- The test input has no ABCI sub-message and gets height zero; with the
sub-message of height 77 it gets 77. -/
theorem vote_extension_height_witness :
    (∃ c, ConsensusParamsFromProto testPbParams = some c ∧
      c.ABCI.VoteExtensionsEnableHeight = 0) ∧
    (∃ c, ConsensusParamsFromProto testPbParamsAbci = some c ∧
      c.ABCI.VoteExtensionsEnableHeight = 77) :=
  ⟨(vote_extension_height testPbParams { MaxBytes := 12345, MaxGas := 67890 }
      { PubKeyTypes := some ["ed25519"] } { App := 42 } rfl rfl rfl).2.2,
   (vote_extension_height testPbParamsAbci { MaxBytes := 12345, MaxGas := 67890 }
      { PubKeyTypes := some ["ed25519"] } { App := 42 } rfl rfl rfl).2.2⟩

/-- C20. For every external consensus-parameter message whose Block, Validator
and Version sub-messages are non-null, the evidence parameters of the result
are the zero value whatever the evidence sub-message of the message, and
replacing the evidence sub-message by any other gives an equal result. -/
theorem consensus_params_drop_evidence (p : cmproto.ConsensusParams)
    (b : cmproto.BlockParams) (v : cmproto.ValidatorParams) (ver : cmproto.VersionParams)
    (hb : p.Block = some b) (hv : p.Validator = some v) (hver : p.Version = some ver) :
    (∃ c, ConsensusParamsFromProto p = some c ∧ c.Evidence = {}) ∧
    ∀ ev : Option cmproto.EvidenceParams,
      ConsensusParamsFromProto { p with Evidence := ev } = ConsensusParamsFromProto p := by
  refine ⟨⟨_, consensusParamsFromProto_eq p b v ver hb hv hver, rfl⟩, fun ev => ?_⟩
  rw [consensusParamsFromProto_eq { p with Evidence := ev } b v ver hb hv hver,
    consensusParamsFromProto_eq p b v ver hb hv hver]

/-- The evidence sub-message (100, 200, 300) leaves no trace: the result has
zero evidence parameters and is that of the same message without it. -/
theorem consensus_params_drop_evidence_witness :
    testPbParamsAbci.Evidence
      = some { MaxAgeNumBlocks := 100, MaxAgeDuration := 200, MaxBytes := 300 } ∧
    (∃ c, ConsensusParamsFromProto testPbParamsAbci = some c ∧ c.Evidence = {}) ∧
    ConsensusParamsFromProto { testPbParamsAbci with Evidence := none }
      = ConsensusParamsFromProto testPbParamsAbci :=
  have h := consensus_params_drop_evidence testPbParamsAbci
    { MaxBytes := 12345, MaxGas := 67890 } { PubKeyTypes := some ["ed25519"] } { App := 42 }
    rfl rfl rfl
  ⟨rfl, h.1, h.2 none⟩

/-! ## The list adapters, one direction at a time -/

/-- C11 (as stated, refuted). A wire commit whose signature list is empty and
non-nil decodes to an empty non-nil signature sequence, not to nil. -/
theorem commit_decode_empty_list :
    emptySignaturesCommit.Signatures.len = 0 ∧
    Commit.FromProto {} (some emptySignaturesCommit)
      = ({ Signatures := some [] }, Outcome.ok) ∧
    (Commit.FromProto {} (some emptySignaturesCommit)).1.Signatures ≠ none := by
  refine ⟨rfl, rfl, by decide⟩

/-- C11 (amended). `Commit.FromProto` returns no error on every wire commit; a
nil signature list gives a nil signature sequence, and a non-nil signature
list of length `n`, zero included, gives a non-nil sequence of length `n` with
the same payload at every index. -/
theorem commit_decode_adapter (c : Commit) :
    (∀ o : pb.Commit, (Commit.FromProto c (some o)).2 = Outcome.ok) ∧
    (Commit.FromProto c (some { Signatures := none })).1.Signatures = none ∧
    ∀ l : List Bytes,
      ∃ r, (Commit.FromProto c (some { Signatures := some l })).1.Signatures = some r ∧
        r.length = l.length ∧ ∀ i, r.get? i = l.get? i := by
  refine ⟨fun o => rfl, rfl, fun l => ⟨l, ?_, rfl, fun i => rfl⟩⟩
  simp [Commit.FromProto]

/-- C17. Both domain-to-wire adapters give a nil wire list for a nil sequence,
and for a non-nil sequence of length `n`, zero included, a non-nil wire list
of `n` entries whose `i`-th entry is the `i`-th payload. -/
theorem to_wire_adapters :
    txsToByteSlices none = none ∧ signaturesToByteSlices none = none ∧
    (∀ l : List Tx,
      ∃ r, txsToByteSlices (some l) = some r ∧ r.length = l.length ∧
        ∀ i, r.get? i = l.get? i) ∧
    (∀ l : List Signature,
      ∃ r, signaturesToByteSlices (some l) = some r ∧ r.length = l.length ∧
        ∀ i, r.get? i = l.get? i) ∧
    txsToByteSlices (some []) = some [] ∧ signaturesToByteSlices (some []) = some [] := by
  refine ⟨rfl, rfl, fun l => ⟨l, ?_, rfl, fun i => rfl⟩, fun l => ⟨l, ?_, rfl, fun i => rfl⟩,
    rfl, rfl⟩
  · exact txsToByteSlices_eq (some l)
  · exact signaturesToByteSlices_eq (some l)

/-! ## Encoding a signed header without validator set -/

/-- C12 (as stated, refuted). With a validator-set conversion that, like the
one of cometbft, turns a nil validator set into an empty non-nil message, the
zero signed header (validator set nil) is encoded without error into a wire
signed header whose validator-set field is not null. -/
theorem signed_header_encode_nil_validators :
    ({} : SignedHeader).Validators = none ∧
    SignedHeader.ToProto sampleValidatorSetToProto {}
      = .ok { Header := some { Version := some {} }, Commit := some {}
              Validators := some {} } ∧
    (∀ w, SignedHeader.ToProto sampleValidatorSetToProto {} = .ok w → w.Validators ≠ none) := by
  refine ⟨rfl, rfl, ?_⟩
  intro w hw
  have h : SignedHeader.ToProto sampleValidatorSetToProto {}
      = .ok { Header := some { Version := some {} }, Commit := some {}
              Validators := some {} } := rfl
  rw [h] at hw
  injection hw with hw
  rw [← hw]
  decide

/-- C12 (amended). For every signed header whose validator set is nil,
`SignedHeader.ToProto` hands the nil validator set to the external conversion
and returns what that gives: its error when it fails, and otherwise no error
and a wire signed header with the encoded header and commit and, as
validator-set field, the result of the conversion, which is null exactly when
the conversion returns null. -/
theorem signed_header_encode_absent (enc : ValidatorSetEncoder) (sh : SignedHeader)
    (h : sh.Validators = none) :
    (∀ e, enc none = .error e → SignedHeader.ToProto enc sh = .error e) ∧
    (∀ wv, enc none = .ok wv →
      SignedHeader.ToProto enc sh
        = .ok { Header := some sh.Header.ToProto, Commit := some sh.Commit.ToProto
                Validators := wv }) ∧
    (enc none = .ok none →
      ∃ w, SignedHeader.ToProto enc sh = .ok w ∧ w.Validators = none) := by
  refine ⟨?_, ?_, ?_⟩
  · intro e he
    simp only [SignedHeader.ToProto, h, he]
  · intro wv he
    simp only [SignedHeader.ToProto, h, he]
  · intro he
    refine ⟨{ Header := some sh.Header.ToProto, Commit := some sh.Commit.ToProto
              Validators := none }, ?_, rfl⟩
    simp only [SignedHeader.ToProto, h, he]

/-- The zero signed header under the sample conversion: the wire validator set
is the empty message that the conversion returns for nil. -/
theorem signed_header_encode_absent_witness :
    ({} : SignedHeader).Validators = none ∧
    SignedHeader.ToProto sampleValidatorSetToProto {}
      = .ok { Header := some ({} : SignedHeader).Header.ToProto
              Commit := some ({} : SignedHeader).Commit.ToProto
              Validators := some {} } :=
  ⟨rfl, (signed_header_encode_absent sampleValidatorSetToProto {} rfl).2.1 (some {}) rfl⟩

/-! ## State decode -/

/-- C15. For every wire state with a version sub-message and every receiver,
`State.FromProto` returns the error `e` exactly when the block-id decoder
rejects the wire last-block-id with `e`; and when the decoder accepts, the call
returns no error, every field of the receiver is the corresponding wire field
and `LastBlockID` is the output of the decoder. -/
theorem state_decode_fails_on_block_id (dec : BlockIDDecoder) (s : State) (o : pb.State)
    (v : cmstate.Version) (hv : o.Version = some v) :
    (∀ e, (State.FromProto dec s (some o)).2 = Outcome.err e ↔
      dec o.LastBlockID = .error e) ∧
    (∀ id, dec o.LastBlockID = .ok id →
      State.FromProto dec s (some o)
        = ({ Version := v
             ChainID := o.ChainId
             InitialHeight := o.InitialHeight
             LastBlockHeight := o.LastBlockHeight
             LastBlockID := id
             LastBlockTime := o.LastBlockTime
             DAHeight := o.DAHeight
             ConsensusParams := o.ConsensusParams
             LastHeightConsensusParamsChanged := o.LastHeightConsensusParamsChanged
             LastResultsHash := o.LastResultsHash
             AppHash := o.AppHash }, Outcome.ok)) := by
  constructor
  · intro e
    cases hd : dec o.LastBlockID with
    | error e2 =>
      simp only [State.FromProto, hv, hd]
      constructor
      · intro h
        injection h with h
        rw [h]
      · intro h
        injection h with h
        rw [h]
    | ok id =>
      simp only [State.FromProto, hv, hd]
      constructor
      · intro h; cases h
      · intro h; cases h
  · intro id hd
    simp only [State.FromProto, hv, hd]

/-- The wire test state: a rejecting decoder's error is returned, and with the
sample decoder the populated receiver `testState` takes every wire field. -/
theorem state_decode_fails_on_block_id_witness :
    (State.FromProto rejectingBlockIDFromProto {} (some testPbState)).2
      = Outcome.err "invalid block id" ∧
    (State.FromProto sampleBlockIDFromProto testState (some testPbState)).1.LastBlockID
      = { Hash := some [1, 2], PartSetHeader := { Total := 1, Hash := some [3] } } :=
  ⟨((state_decode_fails_on_block_id rejectingBlockIDFromProto {} testPbState
      { Consensus := { Block := 123, App := 456 }, Software := "rollkit" } rfl).1
      "invalid block id").2 rfl,
   congrArg (fun r => r.1.LastBlockID)
     ((state_decode_fails_on_block_id sampleBlockIDFromProto testState testPbState
       { Consensus := { Block := 123, App := 456 }, Software := "rollkit" } rfl).2
       { Hash := some [1, 2], PartSetHeader := { Total := 1, Hash := some [3] } } rfl)⟩

/-! ## Header fields, one by one -/

/-- What `Header.FromProto` leaves in the receiver on a wire header with a
version: every field is the wire field, except that an empty proposer address
keeps the address of the receiver. -/
theorem header_fromProto_eq (h : Header) (o : pb.Header) (ver : pb.Version)
    (hv : o.Version = some ver) :
    Header.FromProto h (some o) =
      ({ BaseHeader :=
           { h.BaseHeader with ChainID := o.ChainId, Height := o.Height, Time := o.Time }
         Version := { h.Version with Block := ver.Block, App := ver.App }
         LastHeaderHash := o.LastHeaderHash
         LastCommitHash := o.LastCommitHash
         DataHash := o.DataHash
         ConsensusHash := o.ConsensusHash
         AppHash := o.AppHash
         LastResultsHash := o.LastResultsHash
         ProposerAddress :=
           if o.ProposerAddress.len = 0 then h.ProposerAddress else o.ProposerAddress },
        Outcome.ok) := by
  cases hp : o.ProposerAddress with
  | none => simp [Header.FromProto, hv, hp, Slice.len]
  | some l =>
    cases l with
    | nil => simp [Header.FromProto, hv, hp, Slice.len]
    | cons x t =>
      have hc := goCopy_make 0 (x :: t)
      simp only [List.length_cons] at hc
      simp [Header.FromProto, hv, hp, Slice.len, hc]

/-- C16. Decoding the wire form of a header into a fresh header returns no
error; the decoded proposer address is nil when the proposer address of the
header is nil or an empty non-nil byte string, and has the same length and the
same bytes when it is non-empty. -/
theorem proposer_address_nil_symmetry (h : Header) :
    (Header.FromProto {} (some h.ToProto)).2 = Outcome.ok ∧
    (Header.FromProto {} (some h.ToProto)).1.ProposerAddress
      = (if h.ProposerAddress.len = 0 then none else h.ProposerAddress) ∧
    (Header.FromProto {}
      (some (Header.ToProto { h with ProposerAddress := none }))).1.ProposerAddress = none ∧
    (Header.FromProto {}
      (some (Header.ToProto { h with ProposerAddress := some [] }))).1.ProposerAddress
      = none ∧
    ∀ (x : Nat) (t : List Nat),
      (Header.FromProto {}
        (some (Header.ToProto { h with ProposerAddress := some (x :: t) }))).1.ProposerAddress
        = some (x :: t) ∧
      (Header.FromProto {}
        (some (Header.ToProto
          { h with ProposerAddress := some (x :: t) }))).1.ProposerAddress.len
        = (x :: t).length := by
  have key : ∀ g : Header,
      Header.FromProto {} (some g.ToProto) =
        ({ g with ProposerAddress :=
             if g.ProposerAddress.len = 0 then none else g.ProposerAddress },
          Outcome.ok) := by
    intro g
    rw [header_fromProto_eq {} g.ToProto { Block := g.Version.Block, App := g.Version.App }
      rfl]
    simp [Header.ToProto]
  refine ⟨?_, ?_, ?_, ?_, ?_⟩
  · rw [key]
  · rw [key]
  · rw [key]; rfl
  · rw [key]; rfl
  · intro x t
    rw [key]
    exact ⟨rfl, rfl⟩

/-- C18. For every wire header with a version sub-message and every receiver,
whatever the lengths of the hash fields, `Header.FromProto` returns no error
and each of the six decoded hash fields is the wire field, byte for byte (a
zero-length wire field gives a zero-length hash); and in the wire form of a
header each hash field has the bytes of the header, a zero-value hash giving a
zero-length wire field. -/
theorem hash_fields_any_length (h : Header) (o : pb.Header) (ver : pb.Version)
    (hv : o.Version = some ver) :
    (Header.FromProto h (some o)).2 = Outcome.ok ∧
    ((Header.FromProto h (some o)).1.LastHeaderHash = o.LastHeaderHash ∧
     (Header.FromProto h (some o)).1.LastCommitHash = o.LastCommitHash ∧
     (Header.FromProto h (some o)).1.DataHash = o.DataHash ∧
     (Header.FromProto h (some o)).1.ConsensusHash = o.ConsensusHash ∧
     (Header.FromProto h (some o)).1.AppHash = o.AppHash ∧
     (Header.FromProto h (some o)).1.LastResultsHash = o.LastResultsHash) ∧
    (h.ToProto.LastHeaderHash = h.LastHeaderHash ∧
     h.ToProto.LastCommitHash = h.LastCommitHash ∧
     h.ToProto.DataHash = h.DataHash ∧
     h.ToProto.ConsensusHash = h.ConsensusHash ∧
     h.ToProto.AppHash = h.AppHash ∧
     h.ToProto.LastResultsHash = h.LastResultsHash) ∧
    ((Header.ToProto {}).LastHeaderHash.len = 0 ∧
     (Header.ToProto {}).LastCommitHash.len = 0 ∧
     (Header.ToProto {}).DataHash.len = 0 ∧
     (Header.ToProto {}).ConsensusHash.len = 0 ∧
     (Header.ToProto {}).AppHash.len = 0 ∧
     (Header.ToProto {}).LastResultsHash.len = 0) := by
  rw [header_fromProto_eq h o ver hv]
  refine ⟨rfl, ⟨rfl, rfl, rfl, rfl, rfl, rfl⟩, ?_, ⟨rfl, rfl, rfl, rfl, rfl, rfl⟩⟩
  simp [Header.ToProto]

/-- Hash fields of lengths 0, 32, 3, 0 (nil), 1 and 33 are all taken as they
are. -/
theorem hash_fields_any_length_witness :
    (Header.FromProto testHeader (some mixedHashesHeader)).2 = Outcome.ok ∧
    (Header.FromProto testHeader (some mixedHashesHeader)).1.LastHeaderHash = some [] ∧
    (Header.FromProto testHeader (some mixedHashesHeader)).1.DataHash = some [1, 2, 3] ∧
    (Header.FromProto testHeader (some mixedHashesHeader)).1.ConsensusHash = none :=
  have h := hash_fields_any_length testHeader mixedHashesHeader { Block := 1, App := 2 } rfl
  ⟨h.1, h.2.1.1, h.2.1.2.2.1, h.2.1.2.2.2.1⟩

/-! ## Fields that a decode leaves alone -/

/-- C19 (as stated, refuted). A wire signed header whose validator set is null
and whose header has an empty proposer address, but no version sub-message:
`SignedHeader.FromProto` does not succeed, it faults on the nil version. -/
theorem signed_header_nil_version_faults :
    noVersionSignedHeader.Validators = none ∧
    noVersionSignedHeader.Header = some {} ∧
    ({} : pb.Header).ProposerAddress.len = 0 ∧
    SignedHeader.FromProto sampleValidatorSetFromProto testFullBlock.SignedHeader
      (some noVersionSignedHeader)
      = (testFullBlock.SignedHeader, Outcome.nilDeref) := by
  refine ⟨rfl, rfl, rfl, ?_⟩
  simp [SignedHeader.FromProto, Header.FromProto, noVersionSignedHeader]

/-- C19 (amended). For every receiver, fresh or populated, and every wire
signed header whose header carries a version and an empty proposer address,
whose commit sub-message is non-nil, and whose validator set is null or has no
proposer: `SignedHeader.FromProto` returns no error and leaves `Validators` and
`Header.ProposerAddress` of the receiver exactly as they were before the call;
so two receivers that differ in one of them give different decoded values for
the same wire record. -/
theorem decode_keeps_omitted_fields (dec : ValidatorSetDecoder) (sh : SignedHeader)
    (o : pb.SignedHeader) (hd : pb.Header) (ver : pb.Version) (c : pb.Commit)
    (hh : o.Header = some hd) (hv : hd.Version = some ver) (hc : o.Commit = some c)
    (hpa : hd.ProposerAddress.len = 0)
    (hg : o.Validators = none ∨ ∃ w, o.Validators = some w ∧ w.Proposer = none) :
    (SignedHeader.FromProto dec sh (some o)).2 = Outcome.ok ∧
    (SignedHeader.FromProto dec sh (some o)).1.Validators = sh.Validators ∧
    (SignedHeader.FromProto dec sh (some o)).1.Header.ProposerAddress
      = sh.Header.ProposerAddress ∧
    ∀ sh2 : SignedHeader,
      (sh2.Validators ≠ sh.Validators ∨
        sh2.Header.ProposerAddress ≠ sh.Header.ProposerAddress) →
      (SignedHeader.FromProto dec sh2 (some o)).1 ≠ (SignedHeader.FromProto dec sh (some o)).1 := by
  have hn : validatorsToDecode o.Validators = none := by
    rcases hg with h | ⟨w, hw, hp⟩
    · rw [h]; rfl
    · rw [hw]; simp [validatorsToDecode, hp]
  have key : ∀ r : SignedHeader,
      SignedHeader.FromProto dec r (some o) =
        ({ r with Header := (r.Header.FromProto (some hd)).1
                  Commit := (r.Commit.FromProto (some c)).1 }, Outcome.ok) := by
    intro r
    rw [signedHeader_fromProto_eq dec r o hd ver c hh hv hc, hn]
  have hval : ∀ r : SignedHeader,
      (SignedHeader.FromProto dec r (some o)).1.Validators = r.Validators := by
    intro r; rw [key r]
  have hadr : ∀ r : SignedHeader,
      (SignedHeader.FromProto dec r (some o)).1.Header.ProposerAddress
        = r.Header.ProposerAddress := by
    intro r
    rw [key r]
    show (Header.FromProto r.Header (some hd)).1.ProposerAddress = r.Header.ProposerAddress
    rw [header_fromProto_eq r.Header hd ver hv]
    simp [hpa]
  refine ⟨?_, hval sh, hadr sh, ?_⟩
  · rw [key sh]
  · intro sh2 hne heq
    rcases hne with h1 | h2
    · apply h1
      rw [← hval sh2, ← hval sh, heq]
    · apply h2
      rw [← hadr sh2, ← hadr sh, heq]

/-- The populated signed header of the test block keeps its validator set and
its proposer address `[4, 3, 2, 1]` when a wire record without them is decoded
into it, while its height becomes the wire height. -/
theorem decode_keeps_omitted_fields_witness :
    (SignedHeader.FromProto rejectingValidatorSetFromProto testFullBlock.SignedHeader
      (some omittingSignedHeader)).2 = Outcome.ok ∧
    (SignedHeader.FromProto rejectingValidatorSetFromProto testFullBlock.SignedHeader
      (some omittingSignedHeader)).1.Validators = testFullBlock.SignedHeader.Validators ∧
    (SignedHeader.FromProto rejectingValidatorSetFromProto testFullBlock.SignedHeader
      (some omittingSignedHeader)).1.Header.ProposerAddress = some [4, 3, 2, 1] ∧
    (SignedHeader.FromProto rejectingValidatorSetFromProto {}
      (some omittingSignedHeader)).1
      ≠ (SignedHeader.FromProto rejectingValidatorSetFromProto testFullBlock.SignedHeader
          (some omittingSignedHeader)).1 :=
  have h := decode_keeps_omitted_fields rejectingValidatorSetFromProto
    testFullBlock.SignedHeader omittingSignedHeader
    { Version := some { Block := 9 }, Height := 7 } { Block := 9 } {} rfl rfl rfl rfl
    (Or.inr ⟨_, rfl, rfl⟩)
  ⟨h.1, h.2.1, h.2.2.1, h.2.2.2 {} (Or.inl (by decide))⟩

end Rollkit
